import Mathlib

/-!
Verification of the Artagon CLI core (scripts/cli/core.py) and the Java
release command handlers (scripts/cli/commands/java.py).

The Python code is shallowly embedded: strings are lists of characters so
that every operation computes by kernel reduction; subprocess execution,
file reads and the regex engine are modelled through an explicit `World`
oracle; observable side effects (prints, process executions, file writes,
directory creation, file copies) are recorded as an explicit event trace;
Python exceptions become an `Except` monad over `PyErr`; the by-reference
mutation of the handler-local options object becomes explicit state
threading through the pipeline.
-/

set_option autoImplicit false

namespace Artagon

/-- Python strings, embedded as lists of characters. -/
abbrev Str := List Char

/-- Coerce a Lean string literal into the embedding. -/
def str (s : String) : Str := s.data

/-- Python `str.lower()`. -/
def strLower (s : Str) : Str := s.map Char.toLower

/-- Python `str.strip()`: remove leading and trailing whitespace. -/
def strTrim (s : Str) : Str :=
  ((s.dropWhile Char.isWhitespace).reverse.dropWhile Char.isWhitespace).reverse

/-- Python `str.split(sep)` for a one-character separator; on the empty
string it returns `[""]`, as in Python. -/
def splitOnChar (sep : Char) : Str → List Str
  | [] => [[]]
  | c :: rest =>
      let r := splitOnChar sep rest
      if c == sep then [] :: r
      else (c :: r.headD []) :: r.tail

/-- Python truthiness of an optional string: `None` and `""` are falsy. -/
def strTruthy : Option Str → Bool
  | none => false
  | some s => !s.isEmpty

/-- Python `a or d` for an optional string `a`. -/
def pyOr (a : Option Str) (d : Str) : Str :=
  match a with
  | none => d
  | some s => if s.isEmpty then d else s

/-- Python `f"{x}"` for an optional string: `None` prints as `"None"`. -/
def showOptStr : Option Str → Str
  | none => str "None"
  | some s => s

/-- Python `f"{b}"` for a bool. -/
def pyShowBool : Bool → Str
  | true => str "True"
  | false => str "False"

/-- Decimal value of a digit list (underscores already removed). -/
def digitsVal (cs : Str) : Nat :=
  cs.foldl (fun acc c => acc * 10 + (c.toNat - '0'.toNat)) 0

/-- No two adjacent underscores. -/
def noDoubleUnderscore : Str → Bool
  | [] => true
  | [_] => true
  | a :: b :: rest => !(a == '_' && b == '_') && noDoubleUnderscore (b :: rest)

/-- The digit part accepted by Python `int()`: nonempty, digits with
single underscores strictly between digits. -/
def validDigitPart (cs : Str) : Bool :=
  !cs.isEmpty && cs.all (fun c => c.isDigit || c == '_') &&
    cs.headD '0' != '_' && cs.getLastD '0' != '_' && noDoubleUnderscore cs

/-- Python `int(s)` on a decimal string: surrounding whitespace stripped,
optional sign, digits with underscore grouping; `none` when `int` would
raise `ValueError`. -/
def pyIntParse (s : Str) : Option Int :=
  let t := strTrim s
  match t with
  | [] => none
  | c :: rest =>
      let digits := if c == '-' || c == '+' then rest else t
      if validDigitPart digits then
        let v : Int := Int.ofNat (digitsVal (digits.filter (fun d => d != '_')))
        some (if c == '-' then -v else v)
      else none

/-- Python `str(i)` for an integer. -/
def intToStr : Int → Str
  | Int.ofNat n => Nat.toDigits 10 n
  | Int.negSucc n => '-' :: Nat.toDigits 10 (n + 1)

/-- Python `re.escape`, escaping every character that is not a letter,
digit or underscore. The result only feeds the regex oracle. -/
def reEscape (s : Str) : Str :=
  s.foldr (fun c acc => if c.isAlphanum || c == '_' then c :: acc else '\\' :: c :: acc) []

/-- `pathlib` `/` concatenation. -/
def pathJoin (a b : Str) : Str := a ++ str "/" ++ b

/-- Result record of a completed subprocess, mirroring
`subprocess.CompletedProcess` as the CLI consumes it. -/
structure CompletedProcess where
  args : List Str
  returncode : Int
  stdout : Str
  stderr : Str
deriving Repr, DecidableEq

/-- Python exceptions raised by the embedded code: `RuntimeError`,
`ValueError` and `subprocess.CalledProcessError`. -/
inductive PyErr where
  | runtimeError (msg : Str)
  | valueError (msg : Str)
  | calledProcessError (returncode : Int) (cmd : List Str)
deriving Repr, DecidableEq

/-- Observable side effects of the embedded code. -/
inductive Event where
  | printed (s : Str)
  | executed (cmd : List Str) (cwd : Str)
  | fileRead (path : Str)
  | fileWrite (path : Str) (content : Str)
  | mkdirP (path : Str)
  | copyFile (src : Str) (dst : Str)
deriving Repr, DecidableEq

/-- Configuration values loaded from `.artagonrc` (core.py `CLIConfig`). -/
structure CLIConfig where
  language : Str := str "java"
  owner : Option Str := none
  repo : Option Str := none
deriving Repr, DecidableEq

/-- The state of the optional configuration file as `CLIConfig.load`
observes it: missing, unreadable (an `OSError` while reading), or parsed
TOML whose `defaults` table is modelled as string key-value pairs, the
only shape the three consumed fields take. -/
inductive ConfigFile where
  | missing
  | unreadable (msg : Str)
  | parsed (defaults : List (Str × Str))
deriving Repr, DecidableEq

/-- core.py `CLIConfig.load`: `none` is a `None` path, `some .missing` an
absent file; an `OSError` while reading is re-raised as `RuntimeError`;
otherwise the three fields are read from the `defaults` table with their
documented defaults. -/
def CLIConfig.load : Option ConfigFile → Except PyErr CLIConfig
  | none => Except.ok {}
  | some ConfigFile.missing => Except.ok {}
  | some (ConfigFile.unreadable msg) =>
      Except.error (PyErr.runtimeError (str "Failed to read config: " ++ msg))
  | some (ConfigFile.parsed defaults) =>
      Except.ok
        { language := (List.lookup (str "language") defaults).getD (str "java")
          owner := List.lookup (str "owner") defaults
          repo := List.lookup (str "repo") defaults }

/-- core.py `CommandSpec`, with the handler reference left abstract. -/
structure CommandSpec (H : Type) where
  path : Str
  help : Str
  handler : H
deriving Repr, DecidableEq

/-- core.py `CommandRegistry._commands`: a mapping from normalized path
keys to specs, modelled as an association list with unique keys. -/
abbrev CommandRegistry (H : Type) := List (Str × CommandSpec H)

/-- core.py `CommandRegistry.register`: normalizes the path by strip and
lowercase, raises `ValueError` on a duplicate key, otherwise inserts. -/
def CommandRegistry.register {H : Type} (reg : CommandRegistry H)
    (spec : CommandSpec H) : Except PyErr (CommandRegistry H) :=
  let key := strLower (strTrim spec.path)
  if (List.lookup key reg).isSome then
    Except.error (PyErr.valueError (str "Command " ++ spec.path ++ str " already registered"))
  else
    Except.ok (reg ++ [(key, spec)])

/-- The key tried by `CommandRegistry.find` at length `i`:
`" ".join(lowered[:i])`. -/
def joinKey (lowered : List Str) (i : Nat) : Str :=
  List.intercalate (str " ") (lowered.take i)

/-- The loop of core.py `CommandRegistry.find`, counting `i` from
`lowered.length` down to 1. -/
def CommandRegistry.findFrom {H : Type} (reg : CommandRegistry H)
    (lowered original : List Str) : Nat → Option (CommandSpec H) × List Str
  | 0 => (none, original)
  | Nat.succ i =>
      match List.lookup (joinKey lowered (i + 1)) reg with
      | some spec => (some spec, original.drop (i + 1))
      | none => CommandRegistry.findFrom reg lowered original i

/-- core.py `CommandRegistry.find`: resolve the longest command path
matching the provided tokens. -/
def CommandRegistry.find {H : Type} (reg : CommandRegistry H)
    (tokens : List Str) : Option (CommandSpec H) × List Str :=
  CommandRegistry.findFrom reg (tokens.map strLower) tokens tokens.length

/-- core.py `CommandContext`: shared execution context. The working
directory is a plain path string and the environment a key-value list. -/
structure CommandContext where
  cwd : Str
  env : List (Str × Str)
  dry_run : Bool
  config : CLIConfig
deriving Repr, DecidableEq

/-- Oracle for the external world: results of real subprocess executions
(given the command, working directory and environment), contents of files
read, and the `re.sub` regex engine (pattern, replacement, text). -/
structure World where
  exec : List Str → Str → List (Str × Str) → CompletedProcess
  readFile : Str → Str
  reSub : Str → Str → Str → Str

/-- core.py `CommandContext.run`: under dry-run a non-read-only call is
echoed and replaced by a synthetic success; otherwise the process is
executed for real (recorded as an `Event.executed`), and with `check` a
non-zero exit raises `CalledProcessError`. Without `capture_output` the
captured streams are absent (modelled as empty). -/
def CommandContext.run (w : World) (ctx : CommandContext)
    (command : List Str) (check : Bool) (capture_output : Bool)
    (cwd : Option Str) (read_only : Bool) :
    List Event × Except PyErr CompletedProcess :=
  if ctx.dry_run && !read_only then
    ([Event.printed (str "[dry-run] " ++ List.intercalate (str " ") command)],
     Except.ok ⟨command, 0, [], []⟩)
  else
    let effCwd := cwd.getD ctx.cwd
    let r0 := w.exec command effCwd ctx.env
    let r : CompletedProcess :=
      if capture_output then { r0 with args := command }
      else { args := command, returncode := r0.returncode, stdout := [], stderr := [] }
    ([Event.executed command effCwd],
     if check && r.returncode != 0 then
       Except.error (PyErr.calledProcessError r.returncode command)
     else
       Except.ok r)

/-- A pipeline step: consumes the threaded state, emits events, and
either fails with an exception or returns the new state and a value. -/
def PStep (σ ε α : Type) := σ → List Event × Except ε (σ × α)

/-- The loop of core.py `pipeline`: `result = None; for s in steps:
result = s(ctx); return result`, with the by-reference state made
explicit and events accumulated in execution order. -/
def runSteps {σ ε α : Type} :
    List (PStep σ ε α) → σ → Option α → List Event × Except ε (σ × Option α)
  | [], s, r => ([], Except.ok (s, r))
  | stp :: rest, s, _ =>
      match stp s with
      | (ev, Except.error e) => (ev, Except.error e)
      | (ev, Except.ok (s2, v)) =>
          let out := runSteps rest s2 (some v)
          (ev ++ out.1, out.2)

/-- core.py `pipeline`: compose steps into a single callable. -/
def pipeline {σ ε α : Type} (steps : List (PStep σ ε α)) :
    σ → List Event × Except ε (σ × Option α) :=
  fun s => runSteps steps s none

/-- java.py `ReleaseAction`. -/
inductive ReleaseAction where
  | run
  | tag
  | branch_cut
  | branch_stage
deriving Repr, DecidableEq

/-- java.py `ReleaseOptions`: the handler-local mutable options record. -/
structure ReleaseOptions where
  action : ReleaseAction
  version : Option Str := none
  deploy : Bool := false
  allow_mismatch : Bool := false
  branch : Option Str := none
  next_version : Option Str := none
deriving Repr, DecidableEq

/-- A java.py release pipeline step: threads `ReleaseOptions`, returns
`None`. -/
abbrev JStep := PStep ReleaseOptions PyErr Unit

/-- Sequence a `CommandContext.run` result into the rest of a step,
prepending its events and propagating its exception. -/
def bindRun {α : Type} (x : List Event × Except PyErr CompletedProcess)
    (k : CompletedProcess → List Event × Except PyErr α) :
    List Event × Except PyErr α :=
  match x with
  | (ev, Except.error e) => (ev, Except.error e)
  | (ev, Except.ok r) =>
      let out := k r
      (ev ++ out.1, out.2)

/-- `ctx.env.get("ARTAGON_SKIP_RELEASE_STEPS") == "1"`. -/
def skipReleaseSteps (ctx : CommandContext) : Bool :=
  List.lookup (str "ARTAGON_SKIP_RELEASE_STEPS") ctx.env == some (str "1")

/-- java.py `ensure_repository_clean`. -/
def ensure_repository_clean (w : World) (ctx : CommandContext) : JStep := fun opts =>
  if List.lookup (str "ARTAGON_SKIP_GIT_CLEAN") ctx.env == some (str "1") then
    ([], Except.ok (opts, ()))
  else
    bindRun (CommandContext.run w ctx [str "git", str "status", str "--porcelain"] true true none true)
      fun result =>
        if !(strTrim result.stdout).isEmpty then
          ([], Except.error (PyErr.runtimeError
            (str "Working tree is not clean. Commit or stash changes.")))
        else
          ([], Except.ok (opts, ()))

/-- java.py `ensure_release_branch`. -/
def ensure_release_branch (w : World) (ctx : CommandContext) : JStep := fun opts =>
  bindRun (CommandContext.run w ctx [str "git", str "symbolic-ref", str "--short", str "HEAD"] true true none true)
    fun result =>
      let branch := strTrim result.stdout
      if branch.isEmpty then
        ([], Except.error (PyErr.runtimeError (str "Unable to determine current branch.")))
      else
        let opts1 := { opts with branch := some branch }
        if opts1.action == ReleaseAction.run || opts1.action == ReleaseAction.tag ||
            opts1.action == ReleaseAction.branch_stage then
          if !(List.isPrefixOf (str "release-") branch) then
            if !opts1.allow_mismatch then
              ([], Except.error (PyErr.runtimeError
                (str "Release commands must run from a release-* branch. Current: " ++ branch)))
            else
              ([], Except.ok (opts1, ()))
          else
            let branch_version := branch.drop (str "release-").length
            match opts1.version with
            | none => ([], Except.ok ({ opts1 with version := some branch_version }, ()))
            | some v =>
                if v ≠ branch_version && !opts1.allow_mismatch then
                  ([], Except.error (PyErr.runtimeError
                    (str "Branch (" ++ branch ++ str ") does not match version " ++ v ++
                      str ". Use --allow-branch-mismatch to override.")))
                else
                  ([], Except.ok (opts1, ()))
        else
          ([], Except.ok (opts1, ()))

/-- Python `options.action.name`. -/
def actionName : ReleaseAction → Str
  | ReleaseAction.run => str "RUN"
  | ReleaseAction.tag => str "TAG"
  | ReleaseAction.branch_cut => str "BRANCH_CUT"
  | ReleaseAction.branch_stage => str "BRANCH_STAGE"

/-- java.py `log_release_plan`. -/
def log_release_plan : JStep := fun opts =>
  ([Event.printed (str "[PLAN] Java release action=" ++ actionName opts.action ++
      str ", version=" ++ showOptStr opts.version ++ str ", deploy=" ++ pyShowBool opts.deploy)],
   Except.ok (opts, ()))

/-- java.py `validate_build`. -/
def validate_build (w : World) (ctx : CommandContext) : JStep := fun opts =>
  if skipReleaseSteps ctx then
    ([Event.printed (str "[skip] validate build")], Except.ok (opts, ()))
  else
    bindRun (CommandContext.run w ctx [str "mvn", str "clean", str "verify"] true false none false)
      fun _ => ([], Except.ok (opts, ()))

/-- java.py `calculate_next_snapshot`. -/
def calculate_next_snapshot (version : Str) : Except PyErr Str :=
  let parts := splitOnChar '.' version
  if parts.isEmpty then
    Except.error (PyErr.valueError (str "Invalid version string"))
  else
    match pyIntParse (parts.getLastD []) with
    | none =>
        Except.error (PyErr.valueError
          (str "Unable to increment version component in " ++ version))
    | some n =>
        Except.ok (List.intercalate (str ".") (parts.dropLast ++ [intToStr (n + 1)]) ++
          str "-SNAPSHOT")

/-- java.py `update_versions_to_release`. -/
def update_versions_to_release (w : World) (ctx : CommandContext) : JStep := fun opts =>
  if !strTruthy opts.version then
    ([], Except.error (PyErr.runtimeError (str "Release version is not set.")))
  else if skipReleaseSteps ctx then
    ([Event.printed (str "[skip] update versions to release")], Except.ok (opts, ()))
  else
    let version := (opts.version).getD []
    let bom_dir := pathJoin ctx.cwd (str "artagon-bom")
    let parent_dir := pathJoin ctx.cwd (str "artagon-parent")
    bindRun (CommandContext.run w ctx [str "mvn", str "versions:set", str "-DnewVersion=" ++ version] true false (some bom_dir) false) fun _ =>
    bindRun (CommandContext.run w ctx [str "mvn", str "versions:commit"] true false (some bom_dir) false) fun _ =>
    bindRun (CommandContext.run w ctx [str "mvn", str "versions:set", str "-DnewVersion=" ++ version] true false (some parent_dir) false) fun _ =>
    bindRun (CommandContext.run w ctx [str "mvn", str "versions:commit"] true false (some parent_dir) false) fun _ =>
    let parent_pom := pathJoin parent_dir (str "pom.xml")
    let text := w.readFile parent_pom
    let updated := w.reSub (str "<version>.*-SNAPSHOT</version>")
      (str "<version>" ++ version ++ str "</version>") text
    ([Event.fileRead parent_pom, Event.fileWrite parent_pom updated], Except.ok (opts, ()))

/-- java.py `update_checksums`. -/
def update_checksums (w : World) (ctx : CommandContext) : JStep := fun opts =>
  if skipReleaseSteps ctx then
    ([Event.printed (str "[skip] update checksums")], Except.ok (opts, ()))
  else
    let bom_dir := pathJoin ctx.cwd (str "artagon-bom")
    let parent_dir := pathJoin ctx.cwd (str "artagon-parent")
    bindRun (CommandContext.run w ctx [str "mvn", str "clean", str "verify"] true false (some bom_dir) false) fun _ =>
    let src := pathJoin (pathJoin bom_dir (str "security")) (str "artagon-bom-checksums.csv")
    let dest_dir := pathJoin parent_dir (str "security")
    let dest := pathJoin dest_dir (str "bom-checksums.csv")
    ([Event.mkdirP dest_dir, Event.copyFile src dest], Except.ok (opts, ()))

/-- java.py `commit_release`. -/
def commit_release (w : World) (ctx : CommandContext) : JStep := fun opts =>
  if !strTruthy opts.version then
    ([], Except.error (PyErr.runtimeError (str "Release version is not set")))
  else if skipReleaseSteps ctx then
    ([Event.printed (str "[skip] commit release")], Except.ok (opts, ()))
  else
    let v := (opts.version).getD []
    bindRun (CommandContext.run w ctx [str "git", str "add", str "."] true false none false) fun _ =>
    bindRun (CommandContext.run w ctx [str "git", str "commit", str "-m", str "Release version " ++ v] true false none false) fun _ =>
    bindRun (CommandContext.run w ctx [str "git", str "tag", str "-a", str "v" ++ v, str "-m", str "Release " ++ v] true false none false) fun _ =>
    ([], Except.ok (opts, ()))

/-- java.py `deploy_release`. -/
def deploy_release (w : World) (ctx : CommandContext) : JStep := fun opts =>
  if skipReleaseSteps ctx then
    ([Event.printed (str "[skip] deploy release")], Except.ok (opts, ()))
  else
    bindRun (CommandContext.run w ctx [str "mvn", str "clean", str "deploy", str "-Possrh-deploy,artagon-oss-release"] true false none false)
      fun _ => ([], Except.ok (opts, ()))

/-- java.py `bump_to_next_snapshot`. -/
def bump_to_next_snapshot (w : World) (ctx : CommandContext) : JStep := fun opts =>
  if !strTruthy opts.version then
    ([], Except.error (PyErr.runtimeError (str "Release version is not set")))
  else
    let version := (opts.version).getD []
    match calculate_next_snapshot version with
    | Except.error e => ([], Except.error e)
    | Except.ok next_version =>
        let opts1 := { opts with next_version := some next_version }
        if skipReleaseSteps ctx then
          ([Event.printed (str "[skip] bump to next snapshot")], Except.ok (opts1, ()))
        else
          let bom_dir := pathJoin ctx.cwd (str "artagon-bom")
          let parent_dir := pathJoin ctx.cwd (str "artagon-parent")
          bindRun (CommandContext.run w ctx [str "mvn", str "versions:set", str "-DnewVersion=" ++ next_version] true false (some bom_dir) false) fun _ =>
          bindRun (CommandContext.run w ctx [str "mvn", str "versions:commit"] true false (some bom_dir) false) fun _ =>
          bindRun (CommandContext.run w ctx [str "mvn", str "versions:set", str "-DnewVersion=" ++ next_version] true false (some parent_dir) false) fun _ =>
          bindRun (CommandContext.run w ctx [str "mvn", str "versions:commit"] true false (some parent_dir) false) fun _ =>
          let parent_pom := pathJoin parent_dir (str "pom.xml")
          let text := w.readFile parent_pom
          let updated := w.reSub (str "<version>" ++ reEscape version ++ str "</version>")
            (str "<version>" ++ next_version ++ str "</version>") text
          ([Event.fileRead parent_pom, Event.fileWrite parent_pom updated], Except.ok (opts1, ()))

/-- java.py `commit_next_iteration`. -/
def commit_next_iteration (w : World) (ctx : CommandContext) : JStep := fun opts =>
  if skipReleaseSteps ctx then
    ([Event.printed (str "[skip] commit next iteration")], Except.ok (opts, ()))
  else
    bindRun (CommandContext.run w ctx [str "git", str "add", str "."] true false none false) fun _ =>
    bindRun (CommandContext.run w ctx [str "git", str "commit", str "-m", str "Prepare for next development iteration"] true false none false) fun _ =>
    ([], Except.ok (opts, ()))

/-- java.py `summarize_release`. -/
def summarize_release : JStep := fun opts =>
  let version := pyOr opts.version (str "<unknown>")
  let branch := pyOr opts.branch (str "<release-branch>")
  let base := [
    Event.printed (str "=========================================="),
    Event.printed (str "Release " ++ version ++ str " complete!"),
    Event.printed (str "=========================================="),
    Event.printed (str "Next steps:"),
    Event.printed (str "1. Push to remote: git push origin " ++ branch ++ str " --tags"),
    Event.printed (str "2. Open a pull request from " ++ branch ++ str " back to main"),
    Event.printed (str "3. Release staging repo at: https://s01.oss.sonatype.org/"),
    Event.printed (str "4. Create GitHub release for tag v" ++ version)]
  let extra :=
    if strTruthy opts.next_version then
      [Event.printed (str "Next development version: " ++ showOptStr opts.next_version)]
    else []
  (base ++ extra, Except.ok (opts, ()))

/-- java.py `create_release_tag`. -/
def create_release_tag (w : World) (ctx : CommandContext) : JStep := fun opts =>
  if !strTruthy opts.version then
    ([], Except.error (PyErr.runtimeError (str "Version is required for tagging.")))
  else
    let v := (opts.version).getD []
    bindRun (CommandContext.run w ctx [str "git", str "tag", str "-a", str "v" ++ v, str "-m", str "Release " ++ v] true false none false) fun _ =>
    bindRun (CommandContext.run w ctx [str "git", str "push", str "origin", str "v" ++ v] true false none false) fun _ =>
    ([], Except.ok (opts, ()))

/-- java.py `create_release_branch`. -/
def create_release_branch (w : World) (ctx : CommandContext) : JStep := fun opts =>
  if !strTruthy opts.version then
    ([], Except.error (PyErr.runtimeError (str "Version required to cut release branch.")))
  else
    let branch_name := str "release-" ++ (opts.version).getD []
    bindRun (CommandContext.run w ctx [str "git", str "fetch", str "origin", str "main"] true false none false) fun _ =>
    bindRun (CommandContext.run w ctx [str "git", str "checkout", str "-b", branch_name, str "origin/main"] true false none false) fun _ =>
    bindRun (CommandContext.run w ctx [str "git", str "push", str "--set-upstream", str "origin", branch_name] true false none false) fun _ =>
    ([], Except.ok ({ opts with branch := some branch_name }, ()))

/-- java.py `summarize_stage`. -/
def summarize_stage : JStep := fun opts =>
  let branch := pyOr opts.branch (str "<release-branch>")
  ([Event.printed (str "Stage validation completed for " ++ branch ++ str ".")] ++
    (if opts.deploy then
      [Event.printed (str "Artifacts deployed to OSSRH staging. Review and release when ready.")]
    else
      [Event.printed (str "Run with --deploy to publish staging artifacts once validation passes.")]),
   Except.ok (opts, ()))

/-- The step list built by java.py `handle_release` from parsed options. -/
def buildReleaseSteps (w : World) (ctx : CommandContext) (opts : ReleaseOptions) :
    List JStep :=
  let steps1 := [ensure_repository_clean w ctx]
  let steps2 :=
    if opts.action ≠ ReleaseAction.branch_cut then steps1 ++ [ensure_release_branch w ctx]
    else steps1
  let steps3 := steps2 ++ [log_release_plan]
  match opts.action with
  | ReleaseAction.run =>
      steps3 ++ [validate_build w ctx, update_versions_to_release w ctx,
        update_checksums w ctx, commit_release w ctx, deploy_release w ctx,
        bump_to_next_snapshot w ctx, commit_next_iteration w ctx, summarize_release]
  | ReleaseAction.tag => steps3 ++ [create_release_tag w ctx]
  | ReleaseAction.branch_cut => steps3 ++ [create_release_branch w ctx]
  | ReleaseAction.branch_stage =>
      steps3 ++ [validate_build w ctx] ++
        (if opts.deploy then [deploy_release w ctx] else []) ++ [summarize_stage]

/-- java.py `handle_release` after argument parsing: run the pipeline,
catch `RuntimeError` into `Error: <msg>` plus exit code 1, let every
other exception propagate. -/
def handle_release (w : World) (ctx : CommandContext) (opts : ReleaseOptions) :
    List Event × Except PyErr Int :=
  match pipeline (buildReleaseSteps w ctx opts) opts with
  | (ev, Except.ok _) => (ev, Except.ok 0)
  | (ev, Except.error (PyErr.runtimeError msg)) =>
      (ev ++ [Event.printed (str "Error: " ++ msg)], Except.ok 1)
  | (ev, Except.error e) => (ev, Except.error e)

/-- java.py `handle_snapshot` after argument parsing: a bare `ctx.run`
with no pipeline and no exception handler. -/
def handle_snapshot (w : World) (ctx : CommandContext) : List Event × Except PyErr Int :=
  bindRun (CommandContext.run w ctx [str "mvn", str "clean", str "deploy", str "-Possrh-deploy,artagon-oss-release"] true false none false)
    fun _ => ([], Except.ok 0)

/-- `PyErr.runtimeError` recognizer, the class caught by the release
handler boundary. -/
def isRuntimeErr : PyErr → Bool
  | PyErr.runtimeError _ => true
  | _ => false

/-- Recognizer for real external process executions in a trace. -/
def isExecuted : Event → Bool
  | Event.executed _ _ => true
  | _ => false

/-- Recognizer for file-system modifications in a trace. -/
def isFileEffect : Event → Bool
  | Event.fileWrite _ _ => true
  | Event.mkdirP _ => true
  | Event.copyFile _ _ => true
  | _ => false

/-- Concrete world whose processes all succeed with empty output, whose
files read as `"x"` and whose regex substitution is the identity. -/
def w0 : World where
  exec := fun _ _ _ => ⟨[], 0, [], []⟩
  readFile := fun _ => str "x"
  reSub := fun _ _ t => t

/-- Concrete world where every process reports a dirty working tree. -/
def wDirty : World where
  exec := fun _ _ _ => ⟨[], 0, str " M x", []⟩
  readFile := fun _ => []
  reSub := fun _ _ t => t

/-- Concrete world where every process exits with code 1. -/
def wFail : World where
  exec := fun _ _ _ => ⟨[], 1, [], []⟩
  readFile := fun _ => []
  reSub := fun _ _ t => t

/-- Concrete dry-run context with an empty environment. -/
def ctxDry : CommandContext := ⟨str "/repo", [], true, {}⟩

/-- Concrete non-dry-run context with an empty environment. -/
def ctxPlain : CommandContext := ⟨str "/repo", [], false, {}⟩

/-- Concrete non-dry-run context with the step-stubbing variable set. -/
def ctxSkip : CommandContext :=
  ⟨str "/repo", [(str "ARTAGON_SKIP_RELEASE_STEPS", str "1")], false, {}⟩

/-- Concrete options for the release `run` action at version 1.2.3. -/
def optsRun : ReleaseOptions := { action := ReleaseAction.run, version := some (str "1.2.3") }

/-- Concrete options for the release `tag` action at version 1.2.3. -/
def optsTag123 : ReleaseOptions := { action := ReleaseAction.tag, version := some (str "1.2.3") }

/-- Concrete options whose version has a non-numeric last component. -/
def optsBadVer : ReleaseOptions := { action := ReleaseAction.run, version := some (str "1.2.x") }

/-- Concrete registered spec for the path `java release`. -/
def specA : CommandSpec Nat := ⟨str "java release", str "help a", 1⟩

/-- Concrete registered spec for the path `java release run`. -/
def specB : CommandSpec Nat := ⟨str "java release run", str "help b", 2⟩

/-- Concrete registry holding `java release` and `java release run`. -/
def reg0 : CommandRegistry Nat :=
  [(str "java release", specA), (str "java release run", specB)]

/-- Concrete succeeding pipeline step over a counter state. -/
def stepOkA : PStep Nat Str Nat := fun n => ([Event.printed (str "a")], Except.ok (n + 1, 10))

/-- Second concrete succeeding pipeline step over a counter state. -/
def stepOkB : PStep Nat Str Nat := fun n => ([Event.printed (str "b")], Except.ok (n * 2, 20))

/-- Concrete failing pipeline step. -/
def stepBad : PStep Nat Str Nat := fun _ => ([Event.printed (str "x")], Except.error (str "boom"))

/-! Helper lemmas about the pipeline composer. -/

theorem runSteps_append {σ ε α : Type} (l1 l2 : List (PStep σ ε α)) (s : σ) (r : Option α) :
    runSteps (l1 ++ l2) s r =
      (match runSteps l1 s r with
       | (ev, Except.error e) => (ev, Except.error e)
       | (ev, Except.ok (s2, r2)) =>
           let out := runSteps l2 s2 r2
           (ev ++ out.1, out.2)) := by
  induction l1 generalizing s r with
  | nil => simp [runSteps]
  | cons stp rest ih =>
      simp only [List.cons_append, runSteps]
      cases hs : stp s with
      | mk ev res =>
          cases res with
          | error e => simp
          | ok p =>
              cases p with
              | mk s2 v =>
                  simp only [List.append_eq]
                  rw [ih]
                  cases hr : runSteps rest s2 (some v) with
                  | mk ev2 res2 =>
                      cases res2 with
                      | error e2 => simp
                      | ok p2 => cases p2 with
                        | mk s3 r3 => simp [List.append_assoc]

theorem pipeline_halt {σ ε α : Type} (l pre post : List (PStep σ ε α)) (f : PStep σ ε α)
    (s s1 : σ) (r : Option α) (ev evf : List Event) (e : ε)
    (hl : l = pre ++ f :: post)
    (h1 : runSteps pre s none = (ev, Except.ok (s1, r)))
    (h2 : f s1 = (evf, Except.error e)) :
    pipeline l s = (ev ++ evf, Except.error e) := by
  subst hl
  unfold pipeline
  rw [runSteps_append, h1]
  simp [runSteps, h2]

theorem pipeline_last {σ ε α : Type} (l : List (PStep σ ε α)) (f : PStep σ ε α)
    (s s1 : σ) (r : Option α) (ev evf : List Event) (s2 : σ) (v : α)
    (h1 : runSteps l s none = (ev, Except.ok (s1, r)))
    (h2 : f s1 = (evf, Except.ok (s2, v))) :
    pipeline (l ++ [f]) s = (ev ++ evf, Except.ok (s2, some v)) := by
  unfold pipeline
  rw [runSteps_append, h1]
  simp [runSteps, h2]

/-- C2: the callable returned by `pipeline` executes the steps strictly in
the given order (their event traces concatenate in order); the first step
that raises aborts all remaining steps — the result does not depend on the
steps after the failing one — and the raised error propagates to the
caller unchanged; when all steps succeed the pipeline returns exactly the
value of the last step, every intermediate value (threaded as the `r`
argument) being discarded. -/
theorem pipeline_spec {σ ε α : Type} (l1 l2 : List (PStep σ ε α)) (f : PStep σ ε α) (s : σ) :
    (∀ s1 r ev evf e, runSteps l1 s none = (ev, Except.ok (s1, r)) →
        f s1 = (evf, Except.error e) →
        pipeline (l1 ++ f :: l2) s = (ev ++ evf, Except.error e)) ∧
    (∀ s1 r ev evf s2 v, runSteps l1 s none = (ev, Except.ok (s1, r)) →
        f s1 = (evf, Except.ok (s2, v)) →
        pipeline (l1 ++ [f]) s = (ev ++ evf, Except.ok (s2, some v))) :=
  ⟨fun s1 r ev evf e h1 h2 => pipeline_halt (l1 ++ f :: l2) l1 l2 f s s1 r ev evf e rfl h1 h2,
   fun s1 r ev evf s2 v h1 h2 => pipeline_last l1 f s s1 r ev evf s2 v h1 h2⟩

/-- Witness for C2 at concrete steps over a counter state. -/
theorem pipeline_spec_witness :
    pipeline [stepOkA, stepBad, stepOkB] 0 =
      ([Event.printed (str "a"), Event.printed (str "x")], Except.error (str "boom")) ∧
    pipeline [stepOkA, stepOkB] 0 =
      ([Event.printed (str "a"), Event.printed (str "b")], Except.ok (2, some 20)) :=
  ⟨(pipeline_spec [stepOkA] [stepOkB] stepBad 0).1 1 (some 10)
      [Event.printed (str "a")] [Event.printed (str "x")] (str "boom") rfl rfl,
   (pipeline_spec [stepOkA] [] stepOkB 0).2 1 (some 10)
      [Event.printed (str "a")] [Event.printed (str "b")] 2 20 rfl rfl⟩

/-- C3: under dry-run, a `run` call not marked read-only performs no
external execution, prints a human-readable echo of the command, and
returns a synthetic success with exit code 0 and empty output; a call
marked read-only, or any call when dry-run is unset, executes the
external process for real. -/
theorem run_spec (w : World) (ctx : CommandContext) (command : List Str)
    (check capture_output : Bool) (cwd : Option Str) (read_only : Bool) :
    (ctx.dry_run = true → read_only = false →
      CommandContext.run w ctx command check capture_output cwd read_only =
        ([Event.printed (str "[dry-run] " ++ List.intercalate (str " ") command)],
         Except.ok ⟨command, 0, [], []⟩)) ∧
    (read_only = true ∨ ctx.dry_run = false →
      (CommandContext.run w ctx command check capture_output cwd read_only).1 =
        [Event.executed command (cwd.getD ctx.cwd)]) := by
  constructor
  · intro h1 h2
    simp [CommandContext.run, h1, h2]
  · intro h
    rcases h with h | h <;> simp [CommandContext.run, h]

/-- Witness for C3: a dry-run non-read-only call is echoed and
synthesized; a dry-run read-only call and a non-dry-run call both execute
for real. -/
theorem run_spec_witness :
    CommandContext.run w0 ctxDry [str "mvn", str "clean", str "verify"] true false none false =
      ([Event.printed (str "[dry-run] mvn clean verify")],
       Except.ok ⟨[str "mvn", str "clean", str "verify"], 0, [], []⟩) ∧
    (CommandContext.run w0 ctxDry [str "git", str "status"] true true none true).1 =
      [Event.executed [str "git", str "status"] (str "/repo")] ∧
    (CommandContext.run w0 ctxPlain [str "mvn", str "clean"] true false none false).1 =
      [Event.executed [str "mvn", str "clean"] (str "/repo")] :=
  ⟨(run_spec w0 ctxDry [str "mvn", str "clean", str "verify"] true false none false).1 rfl rfl,
   (run_spec w0 ctxDry [str "git", str "status"] true true none true).2 (Or.inl rfl),
   (run_spec w0 ctxPlain [str "mvn", str "clean"] true false none false).2 (Or.inr rfl)⟩

/-- C5: registering a spec whose normalized (stripped, lowercased) path
collides with an already-registered key fails with a duplicate-path
error and produces no new registry; registering a fresh normalized path
succeeds and only appends the new entry to the in-memory mapping. -/
theorem register_spec {H : Type} (reg : CommandRegistry H) (spec : CommandSpec H) :
    ((List.lookup (strLower (strTrim spec.path)) reg).isSome = true →
      CommandRegistry.register reg spec =
        Except.error (PyErr.valueError
          (str "Command " ++ spec.path ++ str " already registered"))) ∧
    (List.lookup (strLower (strTrim spec.path)) reg = none →
      CommandRegistry.register reg spec =
        Except.ok (reg ++ [(strLower (strTrim spec.path), spec)])) := by
  constructor
  · intro h
    simp [CommandRegistry.register, h]
  · intro h
    simp [CommandRegistry.register, h]

/-- Witness for C5: a differently-cased, padded duplicate of `java
release` is rejected; a fresh path is appended. -/
theorem register_spec_witness :
    CommandRegistry.register reg0 ⟨str " Java Release ", str "dup", 3⟩ =
      Except.error (PyErr.valueError
        (str "Command  Java Release  already registered")) ∧
    CommandRegistry.register reg0 ⟨str "java gh", str "fresh", 4⟩ =
      Except.ok (reg0 ++ [(str "java gh", ⟨str "java gh", str "fresh", 4⟩)]) :=
  ⟨(register_spec reg0 ⟨str " Java Release ", str "dup", 3⟩).1 (by decide),
   (register_spec reg0 ⟨str "java gh", str "fresh", 4⟩).2 (by decide)⟩

/-! Helper lemmas about the registry lookup loop. -/

theorem findFrom_of_no_match {H : Type} (reg : CommandRegistry H)
    (lowered original : List Str) (n : Nat)
    (h : ∀ j, 1 ≤ j → j ≤ n → List.lookup (joinKey lowered j) reg = none) :
    CommandRegistry.findFrom reg lowered original n = (none, original) := by
  induction n with
  | zero => rfl
  | succ n ih =>
      unfold CommandRegistry.findFrom
      rw [h (n + 1) (by omega) (by omega)]
      exact ih (fun j hj1 hj2 => h j hj1 (by omega))

theorem findFrom_of_match {H : Type} (reg : CommandRegistry H)
    (lowered original : List Str) (spec : CommandSpec H) (i n : Nat)
    (h1 : 1 ≤ i) (h2 : i ≤ n)
    (h3 : List.lookup (joinKey lowered i) reg = some spec)
    (h4 : ∀ j, i < j → j ≤ n → List.lookup (joinKey lowered j) reg = none) :
    CommandRegistry.findFrom reg lowered original n = (some spec, original.drop i) := by
  induction n with
  | zero => omega
  | succ n ih =>
      unfold CommandRegistry.findFrom
      by_cases hi : i = n + 1
      · subst hi
        rw [h3]
      · have hin : i ≤ n := by omega
        rw [h4 (n + 1) (by omega) (Nat.le_refl _)]
        exact ih hin (fun j hj1 hj2 => h4 j hj1 (by omega))

theorem findFrom_eq_some {H : Type} (reg : CommandRegistry H)
    (lowered original : List Str) (n : Nat) (spec : CommandSpec H) (rest : List Str)
    (h : CommandRegistry.findFrom reg lowered original n = (some spec, rest)) :
    ∃ i, 1 ≤ i ∧ i ≤ n ∧ List.lookup (joinKey lowered i) reg = some spec ∧
      rest = original.drop i ∧
      ∀ j, i < j → j ≤ n → List.lookup (joinKey lowered j) reg = none := by
  induction n with
  | zero =>
      exact absurd h (by simp [CommandRegistry.findFrom])
  | succ n ih =>
      unfold CommandRegistry.findFrom at h
      cases hl : List.lookup (joinKey lowered (n + 1)) reg with
      | none =>
          rw [hl] at h
          obtain ⟨i, hi1, hi2, hi3, hi4, hi5⟩ := ih h
          refine ⟨i, hi1, by omega, hi3, hi4, fun j hj1 hj2 => ?_⟩
          rcases Nat.lt_or_ge j (n + 1) with hj | hj
          · exact hi5 j hj1 (by omega)
          · have hje : j = n + 1 := by omega
            subst hje
            exact hl
      | some s =>
          rw [hl] at h
          have hpair : ((some s : Option (CommandSpec H)), original.drop (n + 1)) =
              ((some spec : Option (CommandSpec H)), rest) := h
          rw [Prod.mk.injEq] at hpair
          obtain ⟨hA, hB⟩ := hpair
          cases Option.some.inj hA
          exact ⟨n + 1, by omega, Nat.le_refl _, hl, hB.symm, fun j hj1 hj2 => by omega⟩

theorem findFrom_eq_none {H : Type} (reg : CommandRegistry H)
    (lowered original : List Str) (n : Nat) (rest : List Str)
    (h : CommandRegistry.findFrom reg lowered original n = (none, rest)) :
    rest = original ∧
      ∀ j, 1 ≤ j → j ≤ n → List.lookup (joinKey lowered j) reg = none := by
  induction n with
  | zero =>
      have hpair : ((none : Option (CommandSpec H)), original) =
          ((none : Option (CommandSpec H)), rest) := h
      rw [Prod.mk.injEq] at hpair
      exact ⟨hpair.2.symm, fun j hj1 hj2 => by omega⟩
  | succ n ih =>
      unfold CommandRegistry.findFrom at h
      cases hl : List.lookup (joinKey lowered (n + 1)) reg with
      | none =>
          rw [hl] at h
          obtain ⟨h1, h2⟩ := ih h
          refine ⟨h1, fun j hj1 hj2 => ?_⟩
          rcases Nat.lt_or_ge j (n + 1) with hj | hj
          · exact h2 j hj1 (by omega)
          · have hje : j = n + 1 := by omega
            subst hje
            exact hl
      | some s =>
          rw [hl] at h
          exact absurd h (by simp)

/-- C1: `find` returns the spec of the longest registered key matching a
space-joined, lowercased prefix of the tokens — lengths are tried from
the full token count down to 1 — together with the unconsumed remainder
in original case; when a shorter registered path is a token-prefix of a
longer one, the full-length key wins (in particular a hit at the full
length is returned with empty remainder); when no prefix of any length
matches, `find` returns no handler and the original, case-preserved token
list. -/
theorem find_spec {H : Type} (reg : CommandRegistry H) (ts : List Str) :
    (∀ spec rest, CommandRegistry.find reg ts = (some spec, rest) →
        ∃ i, 1 ≤ i ∧ i ≤ ts.length ∧
          List.lookup (joinKey (ts.map strLower) i) reg = some spec ∧
          rest = ts.drop i ∧
          ∀ j, i < j → j ≤ ts.length →
            List.lookup (joinKey (ts.map strLower) j) reg = none) ∧
    (∀ rest, CommandRegistry.find reg ts = (none, rest) →
        rest = ts ∧ ∀ j, 1 ≤ j → j ≤ ts.length →
          List.lookup (joinKey (ts.map strLower) j) reg = none) ∧
    ((∀ j, 1 ≤ j → j ≤ ts.length →
        List.lookup (joinKey (ts.map strLower) j) reg = none) →
      CommandRegistry.find reg ts = (none, ts)) ∧
    (∀ spec, 1 ≤ ts.length →
        List.lookup (joinKey (ts.map strLower) ts.length) reg = some spec →
        CommandRegistry.find reg ts = (some spec, [])) := by
  refine ⟨?_, ?_, ?_, ?_⟩
  · intro spec rest h
    exact findFrom_eq_some reg (ts.map strLower) ts ts.length spec rest h
  · intro rest h
    exact findFrom_eq_none reg (ts.map strLower) ts ts.length rest h
  · intro h
    exact findFrom_of_no_match reg (ts.map strLower) ts ts.length h
  · intro spec h1 h2
    have hd : ts.drop ts.length = [] := List.drop_length ts
    have := findFrom_of_match reg (ts.map strLower) ts spec ts.length ts.length
      h1 (Nat.le_refl _) h2 (fun j hj1 hj2 => by omega)
    rw [hd] at this
    exact this

/-- Witness for C1 on a registry holding `java release` and
`java release run`: the longer path wins on its full tokens (despite the
shorter registered prefix and mixed input case), and an unknown token
resolves to no handler with the original tokens preserved. -/
theorem find_spec_witness :
    CommandRegistry.find reg0 [str "Java", str "Release", str "Run"] = (some specB, []) ∧
    CommandRegistry.find reg0 [str "unknown"] = (none, [str "unknown"]) :=
  ⟨(find_spec reg0 [str "Java", str "Release", str "Run"]).2.2.2 specB (by decide) (by decide),
   (find_spec reg0 [str "unknown"]).2.2.1 (fun j hj1 hj2 => by
      have hje : j = 1 := by
        simp [List.length] at hj2
        omega
      subst hje
      decide)⟩

/-- C6: for the release `run` action the handler builds its pipeline in
exactly the order clean-working-tree check, branch inference, plan
logging, build validation, version update to release, checksum update,
release commit (which also creates the tag), deploy, bump to next
snapshot, next-iteration commit, summary; and under the pipeline
semantics a step runs only after all earlier steps succeeded — when a
step fails, the emitted trace is exactly that of the completed earlier
steps plus the failing step (so nothing already applied is rolled back)
and the error is returned. -/
theorem release_run_order (w : World) (ctx : CommandContext) (opts : ReleaseOptions)
    (h : opts.action = ReleaseAction.run) :
    buildReleaseSteps w ctx opts =
      [ensure_repository_clean w ctx, ensure_release_branch w ctx, log_release_plan,
       validate_build w ctx, update_versions_to_release w ctx, update_checksums w ctx,
       commit_release w ctx, deploy_release w ctx, bump_to_next_snapshot w ctx,
       commit_next_iteration w ctx, summarize_release] ∧
    (∀ pre f post s s1 r ev evf e,
      buildReleaseSteps w ctx opts = pre ++ f :: post →
      runSteps pre s none = (ev, Except.ok (s1, r)) →
      f s1 = (evf, Except.error e) →
      pipeline (buildReleaseSteps w ctx opts) s = (ev ++ evf, Except.error e)) := by
  constructor
  · simp [buildReleaseSteps, h]
  · intro pre f post s s1 r ev evf e hl h1 h2
    exact pipeline_halt (buildReleaseSteps w ctx opts) pre post f s s1 r ev evf e hl h1 h2

/-- Witness for C6 at a concrete world, dry-run context and `run`
options. -/
theorem release_run_order_witness :
    buildReleaseSteps w0 ctxDry optsRun =
      [ensure_repository_clean w0 ctxDry, ensure_release_branch w0 ctxDry, log_release_plan,
       validate_build w0 ctxDry, update_versions_to_release w0 ctxDry, update_checksums w0 ctxDry,
       commit_release w0 ctxDry, deploy_release w0 ctxDry, bump_to_next_snapshot w0 ctxDry,
       commit_next_iteration w0 ctxDry, summarize_release] ∧
    (∀ pre f post s s1 r ev evf e,
      buildReleaseSteps w0 ctxDry optsRun = pre ++ f :: post →
      runSteps pre s none = (ev, Except.ok (s1, r)) →
      f s1 = (evf, Except.error e) →
      pipeline (buildReleaseSteps w0 ctxDry optsRun) s = (ev ++ evf, Except.error e)) :=
  release_run_order w0 ctxDry optsRun rfl

/-- C8: in `handle_release`, a `RuntimeError` raised from within a
pipeline step is caught at the handler boundary, an `Error: <message>`
line is printed after the trace of the steps that ran, and the handler
returns exit status 1; an error of any other class propagates uncaught;
a fully successful pipeline returns exit status 0. -/
theorem handler_error_boundary (w : World) (ctx : CommandContext) (opts : ReleaseOptions) :
    (∀ ev msg,
      runSteps (buildReleaseSteps w ctx opts) opts none =
        (ev, Except.error (PyErr.runtimeError msg)) →
      handle_release w ctx opts =
        (ev ++ [Event.printed (str "Error: " ++ msg)], Except.ok 1)) ∧
    (∀ ev e, isRuntimeErr e = false →
      runSteps (buildReleaseSteps w ctx opts) opts none = (ev, Except.error e) →
      handle_release w ctx opts = (ev, Except.error e)) ∧
    (∀ ev s r,
      runSteps (buildReleaseSteps w ctx opts) opts none = (ev, Except.ok (s, r)) →
      handle_release w ctx opts = (ev, Except.ok 0)) := by
  refine ⟨?_, ?_, ?_⟩
  · intro ev msg h
    simp [handle_release, pipeline, h]
  · intro ev e he h
    cases e with
    | runtimeError msg => simp [isRuntimeErr] at he
    | valueError msg => simp [handle_release, pipeline, h]
    | calledProcessError code cmd => simp [handle_release, pipeline, h]
  · intro ev s r h
    simp [handle_release, pipeline, h]

/-- Witness for C8: a dirty working tree raises `RuntimeError`, which is
printed as an `Error:` line with exit status 1; a failing `git status`
process raises `CalledProcessError`, which propagates uncaught. -/
theorem handler_error_boundary_witness :
    handle_release wDirty ctxPlain optsTag123 =
      ([Event.executed [str "git", str "status", str "--porcelain"] (str "/repo"),
        Event.printed (str "Error: Working tree is not clean. Commit or stash changes.")],
       Except.ok 1) ∧
    handle_release wFail ctxPlain optsTag123 =
      ([Event.executed [str "git", str "status", str "--porcelain"] (str "/repo")],
       Except.error (PyErr.calledProcessError 1 [str "git", str "status", str "--porcelain"])) :=
  ⟨(handler_error_boundary wDirty ctxPlain optsTag123).1
      [Event.executed [str "git", str "status", str "--porcelain"] (str "/repo")]
      (str "Working tree is not clean. Commit or stash changes.") rfl,
   (handler_error_boundary wFail ctxPlain optsTag123).2.1
      [Event.executed [str "git", str "status", str "--porcelain"] (str "/repo")]
      (PyErr.calledProcessError 1 [str "git", str "status", str "--porcelain"])
      (by decide) rfl⟩

/-- C4: evaluation of the release steps at a dry-run context with the
step-stubbing variable unset. The non-read-only `run` calls are all
suppressed (no `executed` event), but `update_versions_to_release` still
writes the parent `pom.xml`, and `update_checksums` still creates the
security directory and copies the checksum file — real file modifications
under dry-run, contradicting the end-to-end no-side-effects claim. -/
theorem dry_run_writes_files :
    ctxDry.dry_run = true ∧
    skipReleaseSteps ctxDry = false ∧
    (update_versions_to_release w0 ctxDry optsRun).1.filter isExecuted = [] ∧
    (update_versions_to_release w0 ctxDry optsRun).1.filter isFileEffect =
      [Event.fileWrite (str "/repo/artagon-parent/pom.xml") (str "x")] ∧
    (update_checksums w0 ctxDry optsRun).1.filter isExecuted = [] ∧
    (update_checksums w0 ctxDry optsRun).1.filter isFileEffect =
      [Event.mkdirP (str "/repo/artagon-parent/security"),
       Event.copyFile (str "/repo/artagon-bom/security/artagon-bom-checksums.csv")
         (str "/repo/artagon-parent/security/bom-checksums.csv")] := by
  refine ⟨rfl, by decide, by decide, by decide, by decide, by decide⟩

/-- Counterexample for C9: with the step-stubbing variable set (and
dry-run off), `create_release_tag` — the side-effecting step of the
release `tag` action — prints no skip notice and still performs its two
external `git` invocations: it never consults the variable. -/
theorem create_release_tag_ignores_skip :
    skipReleaseSteps ctxSkip = true ∧
    create_release_tag w0 ctxSkip optsTag123 =
      ([Event.executed [str "git", str "tag", str "-a", str "v1.2.3", str "-m",
          str "Release 1.2.3"] (str "/repo"),
        Event.executed [str "git", str "push", str "origin", str "v1.2.3"] (str "/repo")],
       Except.ok (optsTag123, ())) := by
  exact ⟨by decide, rfl⟩

/-- C9 (amended): with the step-stubbing variable set, each of the seven
stubbed steps of the release `run` pipeline prints exactly its skip
notice and performs no external invocation or file modification (for the
version-dependent steps, once their version-presence check and the
next-snapshot computation succeed); with the clean-tree bypass variable
set, `ensure_repository_clean` succeeds without inspecting the
repository. (`create_release_tag` and `create_release_branch` do not
consult the stubbing variable.) -/
theorem skip_env_spec (w : World) (ctx : CommandContext) (opts : ReleaseOptions)
    (henv : skipReleaseSteps ctx = true) :
    validate_build w ctx opts =
      ([Event.printed (str "[skip] validate build")], Except.ok (opts, ())) ∧
    (strTruthy opts.version = true →
      update_versions_to_release w ctx opts =
        ([Event.printed (str "[skip] update versions to release")], Except.ok (opts, ()))) ∧
    update_checksums w ctx opts =
      ([Event.printed (str "[skip] update checksums")], Except.ok (opts, ())) ∧
    (strTruthy opts.version = true →
      commit_release w ctx opts =
        ([Event.printed (str "[skip] commit release")], Except.ok (opts, ()))) ∧
    deploy_release w ctx opts =
      ([Event.printed (str "[skip] deploy release")], Except.ok (opts, ())) ∧
    (∀ v nv, opts.version = some v → strTruthy opts.version = true →
      calculate_next_snapshot v = Except.ok nv →
      bump_to_next_snapshot w ctx opts =
        ([Event.printed (str "[skip] bump to next snapshot")],
         Except.ok ({ opts with next_version := some nv }, ()))) ∧
    commit_next_iteration w ctx opts =
      ([Event.printed (str "[skip] commit next iteration")], Except.ok (opts, ())) ∧
    (∀ ctx2 : CommandContext,
      List.lookup (str "ARTAGON_SKIP_GIT_CLEAN") ctx2.env = some (str "1") →
      ensure_repository_clean w ctx2 opts = ([], Except.ok (opts, ()))) := by
  refine ⟨?_, ?_, ?_, ?_, ?_, ?_, ?_, ?_⟩
  · simp [validate_build, henv]
  · intro hv
    simp [update_versions_to_release, henv, hv]
  · simp [update_checksums, henv]
  · intro hv
    simp [commit_release, henv, hv]
  · simp [deploy_release, henv]
  · intro v nv hv htr hcalc
    rw [hv] at htr
    simp [bump_to_next_snapshot, hv, htr, hcalc, henv]
  · simp [commit_next_iteration, henv]
  · intro ctx2 h2
    simp [ensure_repository_clean, h2]

/-- Witness for C9 (amended) at a concrete context with both variables
set. -/
theorem skip_env_spec_witness :
    validate_build w0 ctxSkip optsRun =
      ([Event.printed (str "[skip] validate build")], Except.ok (optsRun, ())) ∧
    update_versions_to_release w0 ctxSkip optsRun =
      ([Event.printed (str "[skip] update versions to release")], Except.ok (optsRun, ())) ∧
    bump_to_next_snapshot w0 ctxSkip optsRun =
      ([Event.printed (str "[skip] bump to next snapshot")],
       Except.ok ({ optsRun with next_version := some (str "1.2.4-SNAPSHOT") }, ())) ∧
    ensure_repository_clean w0
      ⟨str "/repo", [(str "ARTAGON_SKIP_GIT_CLEAN", str "1")], false, {}⟩ optsRun =
      ([], Except.ok (optsRun, ())) := by
  have h := skip_env_spec w0 ctxSkip optsRun (by decide)
  refine ⟨h.1, h.2.1 (by decide), ?_, ?_⟩
  · exact h.2.2.2.2.2.1 (str "1.2.3") (str "1.2.4-SNAPSHOT") rfl (by decide) rfl
  · exact h.2.2.2.2.2.2.2 ⟨str "/repo", [(str "ARTAGON_SKIP_GIT_CLEAN", str "1")], false, {}⟩
      (by decide)

/-- `splitOnChar` never returns the empty list (Python `split` always
yields at least one part). -/
theorem splitOnChar_ne_nil (sep : Char) (s : Str) : splitOnChar sep s ≠ [] := by
  cases s with
  | nil => simp [splitOnChar]
  | cons c rest =>
      unfold splitOnChar
      split <;> simp

/-- C10: when the last dot-separated component of a version parses as a
Python decimal integer, `calculate_next_snapshot` returns the components
with the last replaced by the successor integer, joined with dots, with
`-SNAPSHOT` appended; when it does not parse (the empty string included),
it raises `ValueError`, and `bump_to_next_snapshot` on such a stored
version fails having emitted no event — in particular before running any
external command. -/
theorem calculate_next_snapshot_spec (version : Str) :
    (∀ n : Int, pyIntParse ((splitOnChar '.' version).getLastD []) = some n →
        calculate_next_snapshot version =
          Except.ok (List.intercalate (str ".")
            ((splitOnChar '.' version).dropLast ++ [intToStr (n + 1)]) ++
            str "-SNAPSHOT")) ∧
    (pyIntParse ((splitOnChar '.' version).getLastD []) = none →
        calculate_next_snapshot version =
          Except.error (PyErr.valueError
            (str "Unable to increment version component in " ++ version)) ∧
        ∀ (w : World) (ctx : CommandContext) (opts : ReleaseOptions),
          opts.version = some version →
          (bump_to_next_snapshot w ctx opts).1 = [] ∧
          ∃ e, (bump_to_next_snapshot w ctx opts).2 = Except.error e) := by
  have hne := splitOnChar_ne_nil '.' version
  have hemp : (splitOnChar '.' version).isEmpty = false := by
    cases hsp : splitOnChar '.' version with
    | nil => exact absurd hsp hne
    | cons a l => rfl
  constructor
  · intro n hn
    have hn2 : pyIntParse ((splitOnChar '.' version).getLast?.getD []) = some n := by
      simpa using hn
    simp [calculate_next_snapshot, hemp, hn2]
  · intro hn
    have hn2 : pyIntParse ((splitOnChar '.' version).getLast?.getD []) = none := by
      simpa using hn
    have hcalc : calculate_next_snapshot version =
        Except.error (PyErr.valueError
          (str "Unable to increment version component in " ++ version)) := by
      simp [calculate_next_snapshot, hemp, hn2]
    refine ⟨hcalc, ?_⟩
    intro w ctx opts hv
    cases hve : version.isEmpty with
    | true =>
        have hres : bump_to_next_snapshot w ctx opts =
            ([], Except.error (PyErr.runtimeError (str "Release version is not set"))) := by
          unfold bump_to_next_snapshot
          rw [hv]
          simp [strTruthy, hve]
        rw [hres]
        exact ⟨rfl, ⟨_, rfl⟩⟩
    | false =>
        have hres : bump_to_next_snapshot w ctx opts =
            ([], Except.error (PyErr.valueError
              (str "Unable to increment version component in " ++ version))) := by
          unfold bump_to_next_snapshot
          rw [hv]
          simp [strTruthy, hve, hcalc]
        rw [hres]
        exact ⟨rfl, ⟨_, rfl⟩⟩

/-- Witness for C10: `1.2.3` bumps to `1.2.4-SNAPSHOT`; `1.2.x` raises
`ValueError` and the bump step fails with an empty trace. -/
theorem calculate_next_snapshot_witness :
    calculate_next_snapshot (str "1.2.3") = Except.ok (str "1.2.4-SNAPSHOT") ∧
    calculate_next_snapshot (str "1.2.x") =
      Except.error (PyErr.valueError
        (str "Unable to increment version component in 1.2.x")) ∧
    (bump_to_next_snapshot w0 ctxPlain optsBadVer).1 = [] ∧
    ∃ e, (bump_to_next_snapshot w0 ctxPlain optsBadVer).2 = Except.error e := by
  refine ⟨?_, ?_, ?_, ?_⟩
  · exact (calculate_next_snapshot_spec (str "1.2.3")).1 3 (by decide)
  · exact ((calculate_next_snapshot_spec (str "1.2.x")).2 (by decide)).1
  · exact (((calculate_next_snapshot_spec (str "1.2.x")).2 (by decide)).2
      w0 ctxPlain optsBadVer rfl).1
  · exact (((calculate_next_snapshot_spec (str "1.2.x")).2 (by decide)).2
      w0 ctxPlain optsBadVer rfl).2

/-- Counterexample for C7: an existing but unreadable config file does
not load as the defaults — `CLIConfig.load` raises a `RuntimeError`. -/
theorem config_unreadable_no_defaults :
    CLIConfig.load (some (ConfigFile.unreadable (str "Permission denied"))) =
      Except.error (PyErr.runtimeError
        (str "Failed to read config: Permission denied")) ∧
    ∀ cfg : CLIConfig,
      CLIConfig.load (some (ConfigFile.unreadable (str "Permission denied"))) ≠
        Except.ok cfg := by
  refine ⟨rfl, ?_⟩
  intro cfg h
  simp [CLIConfig.load] at h

/-- C7 (amended): configuration loading returns the documented defaults
(`language` = `java`, `owner` and `repo` absent) when the path is `None`
or the file is absent; when the file exists but is unreadable, loading
fails with a `RuntimeError` instead of falling back to the defaults. (The
loaded record is a frozen dataclass, immutable by construction.) -/
theorem config_load_defaults :
    CLIConfig.load none =
      Except.ok { language := str "java", owner := none, repo := none } ∧
    CLIConfig.load (some ConfigFile.missing) =
      Except.ok { language := str "java", owner := none, repo := none } ∧
    ∀ msg, CLIConfig.load (some (ConfigFile.unreadable msg)) =
      Except.error (PyErr.runtimeError (str "Failed to read config: " ++ msg)) :=
  ⟨rfl, rfl, fun _ => rfl⟩

end Artagon
